import Mathlib

/-!
Shallow embedding of the `httptesting` Go library (package `httptesting`,
files shown in the repository README plus `internal/util`).  The tester is a
record threaded through every call; Go's `t.Fatalf` (which aborts the test)
is modelled by the `Res.fatal` constructor carrying the message and the
tester state at the moment of the abort, and a nil-pointer dereference
(a Go runtime panic that bypasses the `TestingT` failure reporter) by
`Res.crash`.  The HTTP handler is an abstract collaborator: a function from
the served request to the recorded response, standing for
`handler.ServeHTTP(recorder, req)` followed by `recorder.Result()`.
-/

namespace Httptesting

/-- Model of `net/http.Cookie` restricted to the fields this library reads
(`Name`, `Value`); the other attributes play no role in any chained or
asserted behaviour modelled here. -/
structure Cookie where
  name : String
  value : String
deriving DecidableEq, Repr

/-- Model of `http.Cookie.String()` on the retained fields. -/
def Cookie.render (c : Cookie) : String := c.name ++ "=" ++ c.value

/-- Model of `net/http.Header`: a finite map from header key to the list of
values stored under that key (Go: `map[string][]string`).  The library uses
literal keys only, so canonicalisation is omitted. -/
abbrev Header := List (String × List String)

/-- Model of `http.Header.Get`: the first value stored under the key, or the
empty string when the key is absent. -/
def Header.get (h : Header) (k : String) : String :=
  match h.find? (fun p => p.1 == k) with
  | some (_, v :: _) => v
  | _ => ""

/-- Model of `http.Header.Set`: replace whatever list was stored under the
key by the one-element list holding the given value. -/
def Header.set (h : Header) (k v : String) : Header :=
  (k, [v]) :: h.filter (fun p => p.1 != k)

/-- All values stored under a key (Go: the slice `h[k]`). -/
def Header.valuesOf (h : Header) (k : String) : List String :=
  match h.find? (fun p => p.1 == k) with
  | some p => p.2
  | none => []

/-- Model of `*http.Request` as the library uses it: method, parsed URL
(`none` models a nil `*url.URL`, the state after a failed parse), headers,
the cookies carried by the Cookie header (Go `Request.AddCookie` appends to
it; the handler reads them back with `Request.Cookies()`), and the body
stream contents (`none` models a nil `Body`). -/
structure Request where
  method : String
  url : Option String
  headers : Header
  cookies : List Cookie
  body : Option String
deriving DecidableEq, Repr

/-- Model of `*http.Response` as produced by `httptest.ResponseRecorder.Result()`:
status line, numeric code, headers, the Set-Cookie cookies (`Response.Cookies()`
re-parses the headers on every call, so they are kept as a plain list), and
`body`, the remaining unread bytes of the single-read body stream. -/
structure Response where
  status : String
  statusCode : Int
  headers : Header
  cookies : List Cookie
  body : String
deriving DecidableEq, Repr

/-- Model of the Go `any` values that flow into `State.Values` and
`State.ResponseResult`.  `chanVal` stands for a value `encoding/json`
cannot marshal (a channel or function). -/
inductive GoVal where
  | str : String → GoVal
  | int : Int → GoVal
  | chanVal : GoVal
deriving DecidableEq, Repr

/-- Rendering of a `GoVal` by `fmt` `%v`, used in assertion messages. -/
def GoVal.render : GoVal → String
  | .str s => s
  | .int n => toString n
  | .chanVal => "chan"

/-- The `State` struct: previous request, previous response, last decoded
JSON body, and the key/value store. -/
structure State where
  Request : Option Request
  Response : Option Response
  ResponseResult : Option GoVal
  Values : List (String × GoVal)

/-- The `Httptester` struct.  The `util.TestingT` field is not carried: its
only operation, `Fatalf`, is modelled by the `Res.fatal` outcome. -/
structure Httptester where
  handler : Request → Response
  state : State
  requestExecuted : Bool

/-- Outcome of one call on the tester: normal return, `t.Fatalf` abort
(message and tester state at the abort), or a Go nil-pointer panic. -/
inductive Res where
  | ok : Httptester → Res
  | fatal : String → Httptester → Res
  | crash : Res

/-- Whether the call ended in `t.Fatalf`. -/
def Res.isFatal : Res → Bool
  | .fatal _ _ => true
  | _ => false

/-- Whether the call returned normally. -/
def Res.isOk : Res → Bool
  | .ok _ => true
  | _ => false

/-- The tester state carried by the outcome, when any. -/
def Res.tester : Res → Option Httptester
  | .ok t => some t
  | .fatal _ t => some t
  | .crash => none

/-- Sequencing of tester calls, mirroring consecutive statements of a Go
test: once a call has aborted (or panicked) the following statements do not
run. -/
def Res.andThen (r : Res) (f : Httptester → Res) : Res :=
  match r with
  | .ok t => f t
  | r => r

/-- Model of `net/url.Parse` as used by `NewRequest`: Go's parser rejects a
URL containing an ASCII control character; any other string stands for its
parsed form. -/
def parseURL (s : String) : Option String :=
  if s.toList.any (fun c => c.toNat < 32 || c.toNat == 127) then none else some s

/-- The request built by `http.NewRequest(http.MethodGet, "/", nil)`: the
lazy default installed by `getRequest`. -/
def defaultRequest : Request :=
  { method := "GET", url := some "/", headers := [], cookies := [], body := none }

/-- `New(t, h)`: fresh tester with empty `State` (only `Values` allocated)
and `requestExecuted` at its zero value `false`. -/
def New (handler : Request → Response) : Httptester :=
  { handler := handler
    state := { Request := none, Response := none, ResponseResult := none, Values := [] }
    requestExecuted := false }

/-- Write-back of a mutation performed through the `*http.Request` pointer
returned by `getRequest` (the pointer aliases `state.Request`). -/
def putRequest (ht : Httptester) (req : Request) : Httptester :=
  { ht with state := { ht.state with Request := some req } }

/-- `getRequest`: sets `requestExecuted` to `false`, clears
`state.ResponseResult`, lazily installs the default GET "/" request when
`state.Request` is nil, and returns the pending request together with the
updated tester. -/
def getRequest (ht : Httptester) : Request × Httptester :=
  match ht.state.Request with
  | none =>
      (defaultRequest,
        { ht with
            requestExecuted := false
            state := { ht.state with ResponseResult := none, Request := some defaultRequest } })
  | some req =>
      (req,
        { ht with
            requestExecuted := false
            state := { ht.state with ResponseResult := none } })

/-- `setBodyReader`: stores the reader as the request body (the
`io.NopCloser` wrapping is invisible in the model; a nil reader leaves a nil
body). -/
def setBodyReader (ht : Httptester) (reader : Option String) : Httptester :=
  match getRequest ht with
  | (req, ht) => putRequest ht { req with body := reader }

/-- `NewRequest`: fetch the pending request, overwrite its method, parse and
overwrite its URL — a parse failure leaves a nil URL and is fatal — then set
the body. -/
def NewRequest (ht : Httptester) (method : String) (url : String) (reader : Option String) : Res :=
  match getRequest ht with
  | (req, ht) =>
    let req := { req with method := method }
    match parseURL url with
    | none =>
        Res.fatal "net/url: invalid control character in URL" (putRequest ht { req with url := none })
    | some u =>
        Res.ok (setBodyReader (putRequest ht { req with url := some u }) reader)

/-- `NewRequestWithState`: pure delegation to `NewRequest` on the tuple
computed from the current state. -/
def NewRequestWithState (ht : Httptester) (f : State → String × String × Option String) : Res :=
  match f ht.state with
  | (m, u, r) => NewRequest ht m u r

/-- `Get`. -/
def Get (ht : Httptester) (url : String) : Res :=
  NewRequest ht "GET" url none

/-- `GetWithState`. -/
def GetWithState (ht : Httptester) (f : State → String) : Res :=
  Get ht (f ht.state)

/-- `Post`. -/
def Post (ht : Httptester) (url : String) (reader : Option String) : Res :=
  NewRequest ht "POST" url reader

/-- `PostWithState`. -/
def PostWithState (ht : Httptester) (f : State → String × Option String) : Res :=
  match f ht.state with
  | (u, r) => Post ht u r

/-- `Put`. -/
def Put (ht : Httptester) (url : String) (reader : Option String) : Res :=
  NewRequest ht "PUT" url reader

/-- `PutWithState`. -/
def PutWithState (ht : Httptester) (f : State → String × Option String) : Res :=
  match f ht.state with
  | (u, r) => Put ht u r

/-- `Patch`. -/
def Patch (ht : Httptester) (url : String) (reader : Option String) : Res :=
  NewRequest ht "PATCH" url reader

/-- `PatchWithState`. -/
def PatchWithState (ht : Httptester) (f : State → String × Option String) : Res :=
  match f ht.state with
  | (u, r) => Patch ht u r

/-- `Delete`. -/
def Delete (ht : Httptester) (url : String) : Res :=
  NewRequest ht "DELETE" url none

/-- `DeleteWithState`. -/
def DeleteWithState (ht : Httptester) (f : State → String) : Res :=
  Delete ht (f ht.state)

/-- `SetBody`. -/
def SetBody (ht : Httptester) (reader : Option String) : Httptester :=
  setBodyReader ht reader

/-- Model of `util.EncodeJson` / `json.Marshal` on the `GoVal` universe:
strings and integers are encodable, a channel value is not. -/
def encodeJson : GoVal → Option String
  | .str s => some ("\x22" ++ s ++ "\x22")
  | .int n => some (toString n)
  | .chanVal => none

/-- `SetRequestBodyJson`: encode the value; an encoding error is fatal
before the request is touched, otherwise the JSON bytes become the body. -/
def SetRequestBodyJson (ht : Httptester) (body : GoVal) : Res :=
  match encodeJson body with
  | none => Res.fatal "Error encoding request body" ht
  | some jsonBody => Res.ok (setBodyReader ht (some jsonBody))

/-- `SetBodyWithState`. -/
def SetBodyWithState (ht : Httptester) (f : State → Option String) : Httptester :=
  SetBody ht (f ht.state)

/-- `AddHeader`: `ht.getRequest().Header.Set(key, value)`. -/
def AddHeader (ht : Httptester) (key : String) (value : String) : Httptester :=
  match getRequest ht with
  | (req, ht) => putRequest ht { req with headers := Header.set req.headers key value }

/-- `AddHeaderWithState`. -/
def AddHeaderWithState (ht : Httptester) (f : State → String × String) : Httptester :=
  match f ht.state with
  | (k, v) => AddHeader ht k v

/-- `AddCookie`: `ht.getRequest().AddCookie(cookie)` — appends to the
request's Cookie header. -/
def AddCookie (ht : Httptester) (cookie : Cookie) : Httptester :=
  match getRequest ht with
  | (req, ht) => putRequest ht { req with cookies := req.cookies ++ [cookie] }

/-- `AddCookieWithState`. -/
def AddCookieWithState (ht : Httptester) (f : State → Cookie) : Httptester :=
  AddCookie ht (f ht.state)

/-- Last-write-wins insertion into the `Values` map. -/
def valuesSet (vs : List (String × GoVal)) (k : String) (v : GoVal) : List (String × GoVal) :=
  (k, v) :: vs.filter (fun p => p.1 != k)

/-- `SetValue`: writes straight into `state.Values`; note that it does not
go through `getRequest`. -/
def SetValue (ht : Httptester) (key : String) (v : GoVal) : Httptester :=
  { ht with state := { ht.state with Values := valuesSet ht.state.Values key v } }

/-- `SetValueWithState`. -/
def SetValueWithState (ht : Httptester) (f : State → String × GoVal) : Httptester :=
  match f ht.state with
  | (key, v) =>
    { ht with state := { ht.state with Values := valuesSet ht.state.Values key v } }

/-- The tail of `Execute` after the cookie-forwarding loop: fetch the
pending request (lazily default-constructed here), dispatch it through the
handler, set `requestExecuted`, store the response, clear the request. -/
def executeDispatch (ht : Httptester) : Res :=
  match getRequest ht with
  | (req, ht) =>
    let response := ht.handler req
    Res.ok
      { ht with
          requestExecuted := true
          state := { ht.state with Response := some response, Request := none } }

/-- `Execute`.  The cookie-forwarding loop reads `ht.state.Request`
directly (not through `getRequest`): when the previous response carries at
least one cookie and no request is pending, the first loop iteration calls
`AddCookie` on a nil `*http.Request` — a nil-pointer panic, modelled by
`Res.crash`.  With no previous response, or a previous response without
cookies, the loop body never runs. -/
def Execute (ht : Httptester) : Res :=
  match ht.state.Response with
  | none => executeDispatch ht
  | some resp =>
    match resp.cookies with
    | [] => executeDispatch ht
    | _ :: _ =>
      match ht.state.Request with
      | none => Res.crash
      | some req =>
          executeDispatch (putRequest ht { req with cookies := req.cookies ++ resp.cookies })

/-- Rendering of the possibly-nil URL in the `assertRequestExecuted`
message. -/
def urlString : Option String → String
  | some s => s
  | none => ""

/-- `assertRequestExecuted`: when the flag is down, `t.Fatalf` is called;
its argument `ht.getRequest().URL.String()` is evaluated first, so the
failing check itself runs `getRequest` and mutates the state carried into
the abort. -/
def assertRequestExecuted (ht : Httptester) : Res :=
  if ht.requestExecuted then Res.ok ht
  else
    match getRequest ht with
    | (req, ht) =>
        Res.fatal ("Request \x22" ++ urlString req.url ++ "\x22 was not executed") ht

/-- `AssertStatus`.  On mismatch the message interpolates the response's
status first and the caller's expected status second. -/
def AssertStatus (ht : Httptester) (expectedStatus : String) : Res :=
  match assertRequestExecuted ht with
  | Res.ok ht =>
    match ht.state.Response with
    | none => Res.crash
    | some resp =>
      if resp.status != expectedStatus then
        Res.fatal ("Expected status \x22" ++ resp.status ++ "\x22; got \x22" ++ expectedStatus ++ "\x22") ht
      else Res.ok ht
  | r => r

/-- `AssertStatusCode`.  On mismatch the message interpolates the
response's code first and the caller's expected code second. -/
def AssertStatusCode (ht : Httptester) (statusCode : Int) : Res :=
  match assertRequestExecuted ht with
  | Res.ok ht =>
    match ht.state.Response with
    | none => Res.crash
    | some resp =>
      if resp.statusCode != statusCode then
        Res.fatal ("Expected " ++ toString resp.statusCode ++ "; got " ++ toString statusCode) ht
      else Res.ok ht
  | r => r

/-- `AssertHeader`.  On mismatch the message interpolates the response's
header value first and the caller's expected value second. -/
def AssertHeader (ht : Httptester) (key : String) (expectedValue : String) : Res :=
  match assertRequestExecuted ht with
  | Res.ok ht =>
    match ht.state.Response with
    | none => Res.crash
    | some resp =>
      if Header.get resp.headers key != expectedValue then
        Res.fatal ("Expected \x22" ++ Header.get resp.headers key ++ "\x22; got \x22" ++ expectedValue ++ "\x22") ht
      else Res.ok ht
  | r => r

/-- `getCookie` helper: first cookie with the wanted name. -/
def getCookie (cookies : List Cookie) (wantCookie : String) : Option Cookie :=
  cookies.find? (fun cookie => cookie.name == wantCookie)

/-- `AssertCookieExists`. -/
def AssertCookieExists (ht : Httptester) (cookieName : String) : Res :=
  match assertRequestExecuted ht with
  | Res.ok ht =>
    match ht.state.Response with
    | none => Res.crash
    | some resp =>
      match getCookie resp.cookies cookieName with
      | none => Res.fatal ("Expected to find cookie \x22" ++ cookieName ++ "\x22") ht
      | some _ => Res.ok ht
  | r => r

/-- `AssertCookieValue`. -/
def AssertCookieValue (ht : Httptester) (cookieName : String) (expectedValue : String) : Res :=
  match assertRequestExecuted ht with
  | Res.ok ht =>
    match ht.state.Response with
    | none => Res.crash
    | some resp =>
      match getCookie resp.cookies cookieName with
      | none => Res.fatal ("Expected to find cookie \x22" ++ cookieName ++ "\x22") ht
      | some cookie =>
        if cookie.value != expectedValue then
          Res.fatal ("Expected cookie to have value of \x22" ++ expectedValue ++ "\x22; got \x22" ++ cookie.value ++ "\x22") ht
        else Res.ok ht
  | r => r

/-- `AssertCookieDeepEquals`.  The expected cookie is an `Option` to model
the nil `*http.Cookie` the source checks for first. -/
def AssertCookieDeepEquals (ht : Httptester) (expectedCookie : Option Cookie) : Res :=
  match assertRequestExecuted ht with
  | Res.ok ht =>
    match expectedCookie with
    | none => Res.fatal "Expected cookie is nil" ht
    | some ec =>
      if ec.name == "" then
        Res.fatal "Expected cookie cannot have an empty Name" ht
      else
        match ht.state.Response with
        | none => Res.crash
        | some resp =>
          match getCookie resp.cookies ec.name with
          | none => Res.fatal ("Expected to find cookie \x22" ++ ec.name ++ "\x22") ht
          | some cookie =>
            if Cookie.render cookie != Cookie.render ec then
              Res.fatal ("Expected " ++ Cookie.render ec ++ "; got " ++ Cookie.render cookie) ht
            else Res.ok ht
  | r => r

/-- `AssertBody`: `io.ReadAll` drains the single-read body stream (the
model's read never errors), then compares; the mismatch message
interpolates the drained response body first and the caller's expected
bytes second. -/
def AssertBody (ht : Httptester) (body : String) : Res :=
  match assertRequestExecuted ht with
  | Res.ok ht =>
    match ht.state.Response with
    | none => Res.crash
    | some resp =>
      let resBody := resp.body
      let ht := { ht with state := { ht.state with Response := some { resp with body := "" } } }
      if resBody != body then
        Res.fatal ("Expected " ++ resBody ++ "; got " ++ body) ht
      else Res.ok ht
  | r => r

/-- Model of `util.DecodeJson` / `json.Decoder.Decode` on the `GoVal`
universe: an empty (already exhausted) stream is an EOF error, a quoted
literal decodes to a string, a decimal literal to an integer, anything else
is a syntax error; the stream is consumed either way. -/
def decodeJson (s : String) : Option GoVal :=
  if s == "" then none
  else if s.startsWith "\x22" && s.endsWith "\x22" && 2 ≤ s.length then
    some (GoVal.str ((s.drop 1).dropRight 1))
  else
    match s.toInt? with
    | some n => some (GoVal.int n)
    | none => none

/-- `AssertStruct`: decode the JSON body (fatal on error), store the
decoded value into `state.ResponseResult`, then evaluate the predicate
(fatal when it returns false).  The receiver shape is abstracted away. -/
def AssertStruct (ht : Httptester) (predicate : GoVal → Bool) : Res :=
  match assertRequestExecuted ht with
  | Res.ok ht =>
    match ht.state.Response with
    | none => Res.crash
    | some resp =>
      let ht := { ht with state := { ht.state with Response := some { resp with body := "" } } }
      match decodeJson resp.body with
      | none => Res.fatal "Error parsing response json" ht
      | some r =>
        let ht := { ht with state := { ht.state with ResponseResult := some r } }
        if !predicate r then Res.fatal "Response body was not equal to predicate" ht
        else Res.ok ht
  | r => r

/-- `AssertStructDeepEquals`: decode, store into `state.ResponseResult`,
then `reflect.DeepEqual` against the expected value. -/
def AssertStructDeepEquals (ht : Httptester) (expected : GoVal) : Res :=
  match assertRequestExecuted ht with
  | Res.ok ht =>
    match ht.state.Response with
    | none => Res.crash
    | some resp =>
      let ht := { ht with state := { ht.state with Response := some { resp with body := "" } } }
      match decodeJson resp.body with
      | none => Res.fatal "Error parsing response json" ht
      | some r =>
        let ht := { ht with state := { ht.state with ResponseResult := some r } }
        if r != expected then
          Res.fatal ("Expected " ++ GoVal.render expected ++ "; got " ++ GoVal.render r) ht
        else Res.ok ht
  | r => r

/-! Concrete fixtures used by witnesses and counterexamples. -/

/-- Handler replying 200 "Ok" with body "Ok" to every request. -/
def okHandler : Request → Response := fun _ =>
  { status := "200 OK", statusCode := 200, headers := [], cookies := [], body := "Ok" }

/-- Handler that sets the cookie `C=v1` on every reply. -/
def cookieHandler : Request → Response := fun _ =>
  { status := "200 OK", statusCode := 200, headers := []
    cookies := [{ name := "C", value := "v1" }], body := "cookie set" }

/-- A tester mid-cycle: a pending request is built and the previous
response carried the cookie `C=v1`. -/
def chainTester : Httptester :=
  { handler := okHandler
    state :=
      { Request := some defaultRequest
        Response := some
          { status := "200 OK", statusCode := 200, headers := []
            cookies := [{ name := "C", value := "v1" }], body := "Ok" }
        ResponseResult := none
        Values := [] }
    requestExecuted := false }

/-- The previous response stored in `chainTester`. -/
def chainResp : Response :=
  { status := "200 OK", statusCode := 200, headers := []
    cookies := [{ name := "C", value := "v1" }], body := "Ok" }

/-- One build-execute cycle against `okHandler`, as in the repository's own
`TestExecute` scenario. -/
def execChain : Res := (Get (New okHandler) "/get").andThen Execute

/-- A tester with a freshly built GET "/" request and no execution yet. -/
def builtTester : Httptester :=
  { handler := okHandler
    state := { Request := some defaultRequest, Response := none, ResponseResult := none, Values := [] }
    requestExecuted := false }

/-- The tester produced by executing `builtTester`. -/
def executedTester : Httptester :=
  { handler := okHandler
    state :=
      { Request := none, Response := some (okHandler defaultRequest)
        ResponseResult := none, Values := [] }
    requestExecuted := true }

/-- `executedTester` after `AssertBody` has drained the response body. -/
def drainedTester : Httptester :=
  { handler := okHandler
    state :=
      { Request := none, Response := some { okHandler defaultRequest with body := "" }
        ResponseResult := none, Values := [] }
    requestExecuted := true }

/-! Helper lemmas shared by several claims. -/

/-- `getRequest` always lowers the executed flag. -/
theorem getRequest_snd_requestExecuted (ht : Httptester) :
    (getRequest ht).2.requestExecuted = false := by
  cases hR : ht.state.Request <;> simp [getRequest, hR]

/-- `getRequest` always clears `state.ResponseResult`. -/
theorem getRequest_snd_responseResult (ht : Httptester) :
    (getRequest ht).2.state.ResponseResult = none := by
  cases hR : ht.state.Request <;> simp [getRequest, hR]

/-- When the executed flag is down, `assertRequestExecuted` evaluates
`getRequest` (mutating the tester) and aborts with the not-executed
message. -/
theorem assertRequestExecuted_not_executed (ht : Httptester) (h : ht.requestExecuted = false) :
    assertRequestExecuted ht =
      Res.fatal ("Request \x22" ++ urlString (getRequest ht).1.url ++ "\x22 was not executed")
        (getRequest ht).2 := by
  cases hR : ht.state.Request <;> simp [assertRequestExecuted, h, getRequest, hR]

/-- C1: for every execution after the first (a previous response exists)
with a pending request built, every cookie of the previous response is
copied onto the request handed to the handler, so the handler observes
those cookies even though `AddCookie` was never called for this cycle. -/
theorem execute_forwards_previous_response_cookies
    (ht : Httptester) (req : Request) (resp : Response)
    (hreq : ht.state.Request = some req) (hresp : ht.state.Response = some resp) :
    ∃ served t2, Execute ht = Res.ok t2 ∧
      t2.state.Response = some (ht.handler served) ∧
      ∀ c ∈ resp.cookies, c ∈ served.cookies := by
  cases hc : resp.cookies with
  | nil =>
      refine ⟨req,
        { ht with
            requestExecuted := true
            state := { ht.state with ResponseResult := none, Request := none, Response := some (ht.handler req) } },
        ?_, ?_, ?_⟩
      · simp [Execute, hresp, hc, executeDispatch, getRequest, hreq]
      · simp
      · simp [hc]
  | cons c0 cs =>
      refine ⟨{ req with cookies := req.cookies ++ (c0 :: cs) },
        { ht with
            requestExecuted := true
            state := { ht.state with ResponseResult := none, Request := none, Response := some (ht.handler { req with cookies := req.cookies ++ (c0 :: cs) }) } },
        ?_, ?_, ?_⟩
      · simp [Execute, hresp, hc, executeDispatch, getRequest, hreq, putRequest]
      · simp
      · intro c hcMem
        exact List.mem_append_right _ hcMem

/-- Witness for C1 at `chainTester`: a built request plus a previous
response carrying `C=v1`. -/
theorem execute_forwards_previous_response_cookies_witness :
    ∃ served t2, Execute chainTester = Res.ok t2 ∧
      t2.state.Response = some (chainTester.handler served) ∧
      ∀ c ∈ chainResp.cookies, c ∈ served.cookies :=
  execute_forwards_previous_response_cookies chainTester defaultRequest chainResp rfl rfl

/-- C2: the cookie-forwarding loop in `Execute` dereferences
`state.Request` before the lazy default construction runs; executing a
second cycle without touching the builder, after a response that set a
cookie, nil-panics instead of proceeding with a default request. -/
theorem execute_cookie_forward_crashes_without_pending_request :
    ((Get (New cookieHandler) "/set-cookie").andThen Execute).andThen Execute = Res.crash := rfl

/-- C3: every assertion operation invoked while the executed flag is false
is fatal, regardless of prior builder calls. -/
theorem assertions_require_execution
    (ht : Httptester) (h : ht.requestExecuted = false)
    (s : String) (n : Int) (k v cn cv : String) (ec : Option Cookie)
    (b : String) (p : GoVal → Bool) (e : GoVal) :
    (AssertStatus ht s).isFatal = true ∧
    (AssertStatusCode ht n).isFatal = true ∧
    (AssertHeader ht k v).isFatal = true ∧
    (AssertCookieExists ht cn).isFatal = true ∧
    (AssertCookieValue ht cn cv).isFatal = true ∧
    (AssertCookieDeepEquals ht ec).isFatal = true ∧
    (AssertBody ht b).isFatal = true ∧
    (AssertStruct ht p).isFatal = true ∧
    (AssertStructDeepEquals ht e).isFatal = true := by
  have hA := assertRequestExecuted_not_executed ht h
  refine ⟨?_, ?_, ?_, ?_, ?_, ?_, ?_, ?_, ?_⟩ <;>
    simp [AssertStatus, AssertStatusCode, AssertHeader, AssertCookieExists,
      AssertCookieValue, AssertCookieDeepEquals, AssertBody, AssertStruct,
      AssertStructDeepEquals, hA, Res.isFatal]

/-- Witness for C3 on a fresh tester that has built (but not executed) a
request. -/
theorem assertions_require_execution_witness :
    (AssertStatus builtTester "200 OK").isFatal = true ∧
    (AssertBody builtTester "Ok").isFatal = true :=
  ⟨(assertions_require_execution builtTester rfl "200 OK" 200 "K" "V" "C" "v" none "Ok"
      (fun _ => true) (GoVal.str "x")).1,
   (assertions_require_execution builtTester rfl "200 OK" 200 "K" "V" "C" "v" none "Ok"
      (fun _ => true) (GoVal.str "x")).2.2.2.2.2.2.1⟩

/-- C4 counterexample: after an executed cycle the executed flag is up, and
`SetValue` / `SetValueWithState` leave it up — they write only into
`Values` and never pass through `getRequest`. -/
theorem setvalue_keeps_executed_flag_counterexample :
    ∃ t2, execChain = Res.ok t2 ∧ t2.requestExecuted = true ∧
      (SetValue t2 "k" (GoVal.str "v")).requestExecuted = true ∧
      (SetValueWithState t2 (fun _ => ("k", GoVal.str "v"))).requestExecuted = true :=
  ⟨_, rfl, rfl, rfl, rfl⟩

/-- C4 (amended): every builder mutation that goes through `getRequest` —
`NewRequest`, the method shorthands, body setters, header and cookie
mutators, and their `WithState` variants — resets the executed flag to
false (also on the fatal URL-parse path, and on `SetRequestBodyJson`'s
successful path); `SetValue` and `SetValueWithState` write only into
`Values` and leave the flag unchanged. -/
theorem builder_mutations_reset_executed_flag
    (ht : Httptester) (h : ht.requestExecuted = true)
    (m u : String) (rd : Option String) (k v : String) (c : Cookie)
    (f3 : State → String × String × Option String) (f1 : State → String)
    (f2 : State → String × Option String) (fb : State → Option String)
    (fh : State → String × String) (fc : State → Cookie)
    (key : String) (gv : GoVal) (fv : State → String × GoVal) :
    ((NewRequest ht m u rd).tester.all fun t => !t.requestExecuted) = true ∧
    ((NewRequestWithState ht f3).tester.all fun t => !t.requestExecuted) = true ∧
    ((Get ht u).tester.all fun t => !t.requestExecuted) = true ∧
    ((GetWithState ht f1).tester.all fun t => !t.requestExecuted) = true ∧
    ((Post ht u rd).tester.all fun t => !t.requestExecuted) = true ∧
    ((PostWithState ht f2).tester.all fun t => !t.requestExecuted) = true ∧
    ((Put ht u rd).tester.all fun t => !t.requestExecuted) = true ∧
    ((PutWithState ht f2).tester.all fun t => !t.requestExecuted) = true ∧
    ((Patch ht u rd).tester.all fun t => !t.requestExecuted) = true ∧
    ((PatchWithState ht f2).tester.all fun t => !t.requestExecuted) = true ∧
    ((Delete ht u).tester.all fun t => !t.requestExecuted) = true ∧
    ((DeleteWithState ht f1).tester.all fun t => !t.requestExecuted) = true ∧
    (SetBody ht rd).requestExecuted = false ∧
    (SetBodyWithState ht fb).requestExecuted = false ∧
    (∀ t, SetRequestBodyJson ht gv = Res.ok t → t.requestExecuted = false) ∧
    (AddHeader ht k v).requestExecuted = false ∧
    (AddHeaderWithState ht fh).requestExecuted = false ∧
    (AddCookie ht c).requestExecuted = false ∧
    (AddCookieWithState ht fc).requestExecuted = false ∧
    (SetValue ht key gv).requestExecuted = true ∧
    (SetValueWithState ht fv).requestExecuted = true := by
  have hNR : ∀ (m2 u2 : String) (rd2 : Option String),
      ((NewRequest ht m2 u2 rd2).tester.all fun t => !t.requestExecuted) = true := by
    intro m2 u2 rd2
    cases hR : ht.state.Request <;> cases hP : parseURL u2 <;>
      simp [NewRequest, getRequest, hR, hP, setBodyReader, putRequest, Res.tester]
  have hSB : ∀ rd2 : Option String, (setBodyReader ht rd2).requestExecuted = false := by
    intro rd2
    cases hR : ht.state.Request <;> simp [setBodyReader, getRequest, hR, putRequest]
  have hSJ : ∀ t, SetRequestBodyJson ht gv = Res.ok t → t.requestExecuted = false := by
    intro t hOk
    cases hE : encodeJson gv <;> simp [SetRequestBodyJson, hE] at hOk
    rw [← hOk]
    exact hSB _
  have hAH : ∀ k2 v2 : String, (AddHeader ht k2 v2).requestExecuted = false := by
    intro k2 v2
    cases hR : ht.state.Request <;> simp [AddHeader, getRequest, hR, putRequest]
  have hAC : ∀ c2 : Cookie, (AddCookie ht c2).requestExecuted = false := by
    intro c2
    cases hR : ht.state.Request <;> simp [AddCookie, getRequest, hR, putRequest]
  have hNRW : ((NewRequestWithState ht f3).tester.all fun t => !t.requestExecuted) = true := by
    rcases hf : f3 ht.state with ⟨m2, u2, rd2⟩
    simp only [NewRequestWithState, hf]
    exact hNR m2 u2 rd2
  have hPoW : ((PostWithState ht f2).tester.all fun t => !t.requestExecuted) = true := by
    rcases hf : f2 ht.state with ⟨u2, rd2⟩
    simp only [PostWithState, hf, Post]
    exact hNR "POST" u2 rd2
  have hPuW : ((PutWithState ht f2).tester.all fun t => !t.requestExecuted) = true := by
    rcases hf : f2 ht.state with ⟨u2, rd2⟩
    simp only [PutWithState, hf, Put]
    exact hNR "PUT" u2 rd2
  have hPaW : ((PatchWithState ht f2).tester.all fun t => !t.requestExecuted) = true := by
    rcases hf : f2 ht.state with ⟨u2, rd2⟩
    simp only [PatchWithState, hf, Patch]
    exact hNR "PATCH" u2 rd2
  have hAHW : (AddHeaderWithState ht fh).requestExecuted = false := by
    rcases hf : fh ht.state with ⟨k2, v2⟩
    simp only [AddHeaderWithState, hf]
    exact hAH k2 v2
  have hSVW : (SetValueWithState ht fv).requestExecuted = true := by
    rcases hf : fv ht.state with ⟨k2, v2⟩
    simp only [SetValueWithState, hf]
    exact h
  exact ⟨hNR m u rd, hNRW, hNR "GET" u none, hNR "GET" (f1 ht.state) none, hNR "POST" u rd, hPoW,
    hNR "PUT" u rd, hPuW, hNR "PATCH" u rd, hPaW, hNR "DELETE" u none, hNR "DELETE" (f1 ht.state) none,
    hSB rd, hSB (fb ht.state), hSJ, hAH k v, hAHW, hAC c, hAC (fc ht.state), h, hSVW⟩

/-- Witness for C4 (amended) on the executed tester. -/
theorem builder_mutations_reset_executed_flag_witness :
    ((NewRequest executedTester "POST" "/next" (some "b")).tester.all
      fun t => !t.requestExecuted) = true ∧
    (AddHeader executedTester "K" "V").requestExecuted = false ∧
    (SetValue executedTester "k" (GoVal.str "v")).requestExecuted = true :=
  ⟨(builder_mutations_reset_executed_flag executedTester rfl "POST" "/next" (some "b") "K" "V"
      { name := "C", value := "v" } (fun _ => ("POST", "/x", none)) (fun _ => "/x")
      (fun _ => ("/x", none)) (fun _ => none) (fun _ => ("K", "V"))
      (fun _ => { name := "C", value := "v" }) "k" (GoVal.str "v")
      (fun _ => ("k", GoVal.str "v"))).1,
   (builder_mutations_reset_executed_flag executedTester rfl "POST" "/next" (some "b") "K" "V"
      { name := "C", value := "v" } (fun _ => ("POST", "/x", none)) (fun _ => "/x")
      (fun _ => ("/x", none)) (fun _ => none) (fun _ => ("K", "V"))
      (fun _ => { name := "C", value := "v" }) "k" (GoVal.str "v")
      (fun _ => ("k", GoVal.str "v"))).2.2.2.2.2.2.2.2.2.2.2.2.2.2.2.1,
   (builder_mutations_reset_executed_flag executedTester rfl "POST" "/next" (some "b") "K" "V"
      { name := "C", value := "v" } (fun _ => ("POST", "/x", none)) (fun _ => "/x")
      (fun _ => ("/x", none)) (fun _ => none) (fun _ => ("K", "V"))
      (fun _ => { name := "C", value := "v" }) "k" (GoVal.str "v")
      (fun _ => ("k", GoVal.str "v"))).2.2.2.2.2.2.2.2.2.2.2.2.2.2.2.2.2.2.2.1⟩

/-- C5 counterexample: `AddHeader` on a key that already holds a value
replaces it (`Header.Set`), so the earlier value is not preserved. -/
theorem addheader_discards_previous_value_counterexample :
    ∃ req, (AddHeader (AddHeader (New okHandler) "K" "a") "K" "b").state.Request = some req ∧
      Header.valuesOf req.headers "K" = ["b"] ∧
      ¬ "a" ∈ Header.valuesOf req.headers "K" :=
  ⟨_, rfl, rfl, by decide⟩

/-- C5 (amended): `AddHeader` stores exactly the single given value under
the key — any earlier values for that key are discarded — and leaves the
pending request's method, URL, and body untouched. -/
theorem addheader_sets_single_value_preserves_request
    (ht : Httptester) (req : Request) (h : ht.state.Request = some req) (k v : String) :
    ∃ req2, (AddHeader ht k v).state.Request = some req2 ∧
      Header.valuesOf req2.headers k = [v] ∧
      req2.method = req.method ∧ req2.url = req.url ∧ req2.body = req.body := by
  refine ⟨{ req with headers := Header.set req.headers k v }, ?_, ?_, rfl, rfl, rfl⟩
  · simp [AddHeader, getRequest, h, putRequest]
  · simp [Header.set, Header.valuesOf, List.find?]

/-- Witness for C5 (amended) on a tester holding a built request that
already carries a value under the key. -/
theorem addheader_sets_single_value_preserves_request_witness :
    ∃ req2, (AddHeader builtTester "K" "b").state.Request = some req2 ∧
      Header.valuesOf req2.headers "K" = ["b"] ∧
      req2.method = defaultRequest.method ∧ req2.url = defaultRequest.url ∧
      req2.body = defaultRequest.body :=
  addheader_sets_single_value_preserves_request builtTester defaultRequest rfl "K" "b"

/-- C6: for the status, status-code, header, and body assertions the fatal
mismatch message interpolates the response's actual value into the
"Expected" slot and the caller-supplied expected value into the "got" slot
— the reverse of the documented "expected X; got Y" shape (the cookie and
struct assertions use the documented order). -/
theorem assertion_message_places_actual_first :
    ∃ t2, execChain = Res.ok t2 ∧
      AssertStatusCode t2 404 = Res.fatal "Expected 200; got 404" t2 ∧
      AssertStatus t2 "404 Not Found" =
        Res.fatal "Expected status \x22200 OK\x22; got \x22404 Not Found\x22" t2 ∧
      AssertHeader t2 "K" "json" = Res.fatal "Expected \x22\x22; got \x22json\x22" t2 ∧
      ∃ t3, AssertBody t2 "nope" = Res.fatal "Expected Ok; got nope" t3 :=
  ⟨_, rfl, rfl, rfl, rfl, _, rfl⟩

/-- C7: postcondition of a completed `Execute`: the executed flag is up,
`state.Response` holds exactly the response the handler produced for the
served request (overwriting any prior response), and `state.Request` is
cleared to absent. -/
theorem execute_postcondition (ht t2 : Httptester) (h : Execute ht = Res.ok t2) :
    t2.requestExecuted = true ∧ t2.state.Request = none ∧
    ∃ served, t2.state.Response = some (ht.handler served) := by
  cases hResp : ht.state.Response with
  | none =>
      cases hR : ht.state.Request with
      | none =>
          simp [Execute, hResp, executeDispatch, getRequest, hR] at h
          exact ⟨by rw [← h], by rw [← h], defaultRequest, by rw [← h]⟩
      | some req =>
          simp [Execute, hResp, executeDispatch, getRequest, hR] at h
          exact ⟨by rw [← h], by rw [← h], req, by rw [← h]⟩
  | some resp =>
      cases hc : resp.cookies with
      | nil =>
          cases hR : ht.state.Request with
          | none =>
              simp [Execute, hResp, hc, executeDispatch, getRequest, hR] at h
              exact ⟨by rw [← h], by rw [← h], defaultRequest, by rw [← h]⟩
          | some req =>
              simp [Execute, hResp, hc, executeDispatch, getRequest, hR] at h
              exact ⟨by rw [← h], by rw [← h], req, by rw [← h]⟩
      | cons c0 cs =>
          cases hR : ht.state.Request with
          | none => simp [Execute, hResp, hc, hR] at h
          | some req =>
              simp [Execute, hResp, hc, executeDispatch, putRequest, getRequest, hR] at h
              exact ⟨by rw [← h], by rw [← h],
                { req with cookies := req.cookies ++ (c0 :: cs) }, by rw [← h]⟩

/-- Witness for C7: executing the built tester yields `executedTester`. -/
theorem execute_postcondition_witness :
    executedTester.requestExecuted = true ∧ executedTester.state.Request = none ∧
    ∃ served, executedTester.state.Response = some (builtTester.handler served) :=
  execute_postcondition builtTester executedTester rfl

/-- C8: after executing, starting to build the next request clears
`state.ResponseResult` to absent while leaving `state.Response` and
`state.Values` exactly as they were. -/
theorem build_start_clears_response_result
    (ht t1 t2 : Httptester) (m u : String) (rd : Option String)
    (_h1 : Execute ht = Res.ok t1) (h2 : (NewRequest t1 m u rd).tester = some t2) :
    t2.state.ResponseResult = none ∧
    t2.state.Response = t1.state.Response ∧
    t2.state.Values = t1.state.Values := by
  cases hR : t1.state.Request <;> cases hP : parseURL u <;>
    simp [NewRequest, getRequest, hR, hP, setBodyReader, putRequest, Res.tester] at h2 <;>
    exact ⟨by rw [← h2], by rw [← h2], by rw [← h2]⟩

/-- Witness for C8: execute, then begin building a GET "/next" request. -/
theorem build_start_clears_response_result_witness :
    ∃ t2, (NewRequest executedTester "GET" "/next" none).tester = some t2 ∧
      (t2.state.ResponseResult = none ∧
       t2.state.Response = executedTester.state.Response ∧
       t2.state.Values = executedTester.state.Values) :=
  ⟨_, rfl, build_start_clears_response_result builtTester executedTester _ "GET" "/next" none rfl rfl⟩

/-- C9 counterexample: `AssertBody` drains the single-read body stream, so
a second identical invocation with no new build cycle in between observes
an empty body and is fatal although the first invocation passed. -/
theorem assert_body_second_call_differs_counterexample :
    ∃ t2 t3, execChain = Res.ok t2 ∧ AssertBody t2 "Ok" = Res.ok t3 ∧
      (AssertBody t3 "Ok").isFatal = true :=
  ⟨_, _, rfl, rfl, rfl⟩

/-- C9 (amended): the status, status-code, header, and cookie assertions
are stateless reads — a passing call leaves the tester unchanged, so a
repeat behaves identically — but `AssertBody` consumes the single-read
body stream: after a passing call with a non-empty expected body, the
second identical call is fatal. -/
theorem assertion_repeat_behaviour (t : Httptester) :
    (∀ t2 s, AssertStatus t s = Res.ok t2 → t2 = t) ∧
    (∀ t2 n, AssertStatusCode t n = Res.ok t2 → t2 = t) ∧
    (∀ t2 k v, AssertHeader t k v = Res.ok t2 → t2 = t) ∧
    (∀ t2 cn, AssertCookieExists t cn = Res.ok t2 → t2 = t) ∧
    (∀ t2 cn cv, AssertCookieValue t cn cv = Res.ok t2 → t2 = t) ∧
    (∀ t2 ec, AssertCookieDeepEquals t ec = Res.ok t2 → t2 = t) ∧
    (∀ t2 b, AssertBody t b = Res.ok t2 → b ≠ "" → (AssertBody t2 b).isFatal = true) := by
  refine ⟨?_, ?_, ?_, ?_, ?_, ?_, ?_⟩
  · intro t2 s hOk
    cases hE : t.requestExecuted with
    | false => simp [AssertStatus, assertRequestExecuted_not_executed t hE] at hOk
    | true =>
        cases hResp : t.state.Response with
        | none => simp [AssertStatus, assertRequestExecuted, hE, hResp] at hOk
        | some resp =>
            simp only [AssertStatus, assertRequestExecuted, hE, if_true, hResp] at hOk
            split at hOk
            · simp at hOk
            · simp at hOk; exact hOk.symm
  · intro t2 n hOk
    cases hE : t.requestExecuted with
    | false => simp [AssertStatusCode, assertRequestExecuted_not_executed t hE] at hOk
    | true =>
        cases hResp : t.state.Response with
        | none => simp [AssertStatusCode, assertRequestExecuted, hE, hResp] at hOk
        | some resp =>
            simp only [AssertStatusCode, assertRequestExecuted, hE, if_true, hResp] at hOk
            split at hOk
            · simp at hOk
            · simp at hOk; exact hOk.symm
  · intro t2 k v hOk
    cases hE : t.requestExecuted with
    | false => simp [AssertHeader, assertRequestExecuted_not_executed t hE] at hOk
    | true =>
        cases hResp : t.state.Response with
        | none => simp [AssertHeader, assertRequestExecuted, hE, hResp] at hOk
        | some resp =>
            simp only [AssertHeader, assertRequestExecuted, hE, if_true, hResp] at hOk
            split at hOk
            · simp at hOk
            · simp at hOk; exact hOk.symm
  · intro t2 cn hOk
    cases hE : t.requestExecuted with
    | false => simp [AssertCookieExists, assertRequestExecuted_not_executed t hE] at hOk
    | true =>
        cases hResp : t.state.Response with
        | none => simp [AssertCookieExists, assertRequestExecuted, hE, hResp] at hOk
        | some resp =>
            simp only [AssertCookieExists, assertRequestExecuted, hE, if_true, hResp] at hOk
            cases hC : getCookie resp.cookies cn with
            | none => simp [hC] at hOk
            | some ck => simp [hC] at hOk; exact hOk.symm
  · intro t2 cn cv hOk
    cases hE : t.requestExecuted with
    | false => simp [AssertCookieValue, assertRequestExecuted_not_executed t hE] at hOk
    | true =>
        cases hResp : t.state.Response with
        | none => simp [AssertCookieValue, assertRequestExecuted, hE, hResp] at hOk
        | some resp =>
            simp only [AssertCookieValue, assertRequestExecuted, hE, if_true, hResp] at hOk
            cases hC : getCookie resp.cookies cn with
            | none => simp [hC] at hOk
            | some ck =>
                simp only [hC] at hOk
                split at hOk
                · simp at hOk
                · simp at hOk; exact hOk.symm
  · intro t2 ec hOk
    cases hE : t.requestExecuted with
    | false => simp [AssertCookieDeepEquals, assertRequestExecuted_not_executed t hE] at hOk
    | true =>
        cases ec with
        | none => simp [AssertCookieDeepEquals, assertRequestExecuted, hE] at hOk
        | some c =>
            by_cases hn : (c.name == "") = true
            · simp [AssertCookieDeepEquals, assertRequestExecuted, hE, hn] at hOk
            · cases hResp : t.state.Response with
              | none =>
                  simp [AssertCookieDeepEquals, assertRequestExecuted, hE, hn, hResp] at hOk
              | some resp =>
                  simp only [AssertCookieDeepEquals, assertRequestExecuted, hE, if_true,
                    hn, if_false, Bool.false_eq_true, hResp] at hOk
                  cases hC : getCookie resp.cookies c.name with
                  | none => simp [hC] at hOk
                  | some ck =>
                      simp only [hC] at hOk
                      split at hOk
                      · simp at hOk
                      · simp at hOk; exact hOk.symm
  · intro t2 b hOk hb
    cases hE : t.requestExecuted with
    | false => simp [AssertBody, assertRequestExecuted_not_executed t hE] at hOk
    | true =>
        cases hResp : t.state.Response with
        | none => simp [AssertBody, assertRequestExecuted, hE, hResp] at hOk
        | some resp =>
            simp only [AssertBody, assertRequestExecuted, hE, if_true, hResp] at hOk
            split at hOk
            · simp at hOk
            · simp at hOk
              have hb2 : ("" != b) = true := bne_iff_ne.mpr (Ne.symm hb)
              rw [← hOk]
              simp [AssertBody, assertRequestExecuted, hE, hb2, Res.isFatal]

/-- Witness for C9 (amended): the drained tester fails a repeat of the
body assertion that just passed on `executedTester`. -/
theorem assertion_repeat_behaviour_witness :
    (AssertBody drainedTester "Ok").isFatal = true :=
  (assertion_repeat_behaviour executedTester).2.2.2.2.2.2 drainedTester "Ok" rfl (by decide)

/-- C10: an assertion invoked with the executed flag down mutates the
tester before aborting: the failing check evaluates `getRequest`, clearing
`state.ResponseResult` and installing the default GET "/" request when none
is pending. -/
theorem failed_execution_check_mutates_state
    (ht : Httptester) (h : ht.requestExecuted = false) (s : String) :
    ∃ m t2, assertRequestExecuted ht = Res.fatal m t2 ∧
      AssertStatus ht s = Res.fatal m t2 ∧
      t2.state.ResponseResult = none ∧
      (ht.state.Request = none → t2.state.Request = some defaultRequest) ∧
      defaultRequest.method = "GET" ∧ defaultRequest.url = some "/" := by
  refine ⟨_, (getRequest ht).2, assertRequestExecuted_not_executed ht h, ?_,
    getRequest_snd_responseResult ht, ?_, rfl, rfl⟩
  · simp [AssertStatus, assertRequestExecuted_not_executed ht h]
  · intro hR
    simp [getRequest, hR]

/-- Witness for C10 on a fresh tester (no pending request, flag down). -/
theorem failed_execution_check_mutates_state_witness :
    ∃ m t2, assertRequestExecuted (New okHandler) = Res.fatal m t2 ∧
      AssertStatus (New okHandler) "200 OK" = Res.fatal m t2 ∧
      t2.state.ResponseResult = none ∧
      ((New okHandler).state.Request = none → t2.state.Request = some defaultRequest) ∧
      defaultRequest.method = "GET" ∧ defaultRequest.url = some "/" :=
  failed_execution_check_mutates_state (New okHandler) rfl "200 OK"

end Httptesting
